import Mathlib

/-!
Verification development for the movie-chat RAG service.

This file gives a shallow embedding of the two core modules:

* the retriever `findRelevantContent` together with its reranker helper
  `callReranker` (src/lib/ai/embedding.ts, the variant with the two-stage
  rerank pipeline), and
* the chat-route handler `POST` (src/app/api/chat/route.ts), the
  tool-orchestration loop.

External collaborators (embedding API, SQL store, reranker HTTP service,
chat model, ingestion action) are modelled as explicit world/oracle data
threaded through the functions; JavaScript numbers are modelled as `ℚ`.
JavaScript `Array.prototype.sort` is a stable sort, and a stable sort with
respect to a total preorder is unique, so it is modelled by
`List.insertionSort` (Mathlib's stable insertion sort).
Each function additionally returns a small trace recording which external
collaborators were actually contacted, so that non-invocation claims can be
stated.
-/

open List

/-- JavaScript `String.prototype.trim`: drop whitespace from both ends. -/
def jsTrim (s : String) : String :=
  ⟨((s.data.dropWhile Char.isWhitespace).reverse.dropWhile Char.isWhitespace).reverse⟩

/-! ## Retriever (src/lib/ai/embedding.ts) -/

/-- `RelevantChunk` from embedding.ts: one retrieval candidate. -/
structure RelevantChunk where
  id : Int
  content : String
  createdAt : Int
  distance : ℚ
  rerankScore : Option ℚ := none
deriving Repr, DecidableEq

/-- `RerankResult` from embedding.ts: one entry of the reranker's `results`
array.  `id` is stored after JavaScript `String(...)` coercion.  `distance`
and `rerank_score` are guarded by `typeof ... === "number"` in the merge, so
`Option ℚ` (present iff numeric) is exact for them.  `content` has no type
guard in the source — `item.content ?? base.content` takes any non-nullish
JSON value; this record restricts `content` to strings, which is immaterial
for length/ordering/id claims, while the untyped content slot is modelled
faithfully by `RerankResultU`/`mergeResultsU` below. -/
structure RerankResult where
  id : String
  content : Option String := none
  distance : Option ℚ := none
  rerank_score : Option ℚ := none
deriving Repr, DecidableEq

def DEFAULT_LIMIT : Nat := 5

def FIRST_STAGE_MULTIPLIER : Nat := 5

def FIRST_STAGE_MAX : Nat := 50

/-- The comparator key `(x.rerankScore ?? 0)` used by the sort in
`callReranker`. -/
def scoreOf (c : RelevantChunk) : ℚ := c.rerankScore.getD 0

/-- Ordering relation of the sort `(a, b) => (b.rerankScore ?? 0) - (a.rerankScore ?? 0)`:
descending by rerank score. -/
def byScoreDesc (a b : RelevantChunk) : Prop := scoreOf b ≤ scoreOf a

instance : DecidableRel byScoreDesc :=
  fun a b => inferInstanceAs (Decidable (scoreOf b ≤ scoreOf a))

instance : IsTotal RelevantChunk byScoreDesc := ⟨fun a b => le_total (scoreOf b) (scoreOf a)⟩

instance : IsTrans RelevantChunk byScoreDesc := ⟨fun _ _ _ h h2 => le_trans h2 h⟩

/-- The `baseMap` lookup of `callReranker`: `Map.set` in insertion order keeps
the last binding for a key, so `get` returns the last candidate whose
stringified id equals the key. -/
def lookupById (cands : List RelevantChunk) (key : String) : Option RelevantChunk :=
  (cands.filter (fun b => toString b.id == key)).getLast?

/-- The merge body of `callReranker`: spread the base candidate, then replace
`content` when the item carries one (`item.content ?? base.content`),
`distance` and `rerankScore` when the item carries a numeric value. -/
def applyRerank (base : RelevantChunk) (item : RerankResult) : RelevantChunk :=
  { base with
    content := item.content.getD base.content
    distance := item.distance.getD base.distance
    rerankScore := item.rerank_score.or base.rerankScore }

/-- The `merged` list of `callReranker`: walk the reranker results in order,
drop every item whose id has no matching candidate, apply the field merge
otherwise. -/
def mergeResults (rs : List RerankResult) (cands : List RelevantChunk) : List RelevantChunk :=
  rs.filterMap (fun item => (lookupById cands item.id).map (fun base => applyRerank base item))

/-- A non-nullish JSON value, as it can appear in the reranker body's
`content` field (`null`/`undefined` are the `none` of the surrounding
`Option`).  Scalar constructors suffice here: the merge treats every
non-nullish value identically, so arrays and objects add nothing the
claims can distinguish. -/
inductive JsonValue where
  | str (s : String)
  | num (q : ℚ)
  | bool (b : Bool)
deriving Repr, DecidableEq

/-- Whether a JSON value is a string. -/
def JsonValue.isStr : JsonValue → Bool
  | .str _ => true
  | _ => false

/-- `RerankResult` with the `content` slot untyped, as the source actually
receives it: no `typeof` check guards `content`, so any non-nullish JSON
value is kept. -/
structure RerankResultU where
  id : String
  content : Option JsonValue := none
  distance : Option ℚ := none
  rerank_score : Option ℚ := none
deriving Repr, DecidableEq

/-- The runtime shape of a merged candidate: after
`content: item.content ?? base.content` the `content` slot can hold any
non-nullish JSON value, even though the TypeScript annotation says
`string`. -/
structure MergedChunk where
  id : Int
  content : JsonValue
  createdAt : Int
  distance : ℚ
  rerankScore : Option ℚ := none
deriving Repr, DecidableEq

/-- The merge body of `callReranker` over the untyped `content` slot:
`content` is replaced by whatever non-nullish value the item carries
(string or not), while `distance`/`rerankScore` keep their `typeof` number
guards. -/
def applyRerankU (base : RelevantChunk) (item : RerankResultU) : MergedChunk :=
  { id := base.id
    content := item.content.getD (JsonValue.str base.content)
    createdAt := base.createdAt
    distance := item.distance.getD base.distance
    rerankScore := item.rerank_score.or base.rerankScore }

/-- The `merged` list of `callReranker` over the untyped `content` slot. -/
def mergeResultsU (rs : List RerankResultU) (cands : List RelevantChunk) : List MergedChunk :=
  rs.filterMap (fun item => (lookupById cands item.id).map (fun base => applyRerankU base item))

/-- How the reranker collaborator behaves for one request, covering every
branch of `callReranker`: no configured base URL, a base URL the `URL`
constructor rejects, a thrown `fetch`, a non-ok HTTP status, a body whose
`results` is not an array, or a parsed `results` array. -/
inductive RerankerOutcome where
  | unconfigured
  | invalidUrl
  | fetchError
  | httpError (status : Nat)
  | malformedBody
  | results (rs : List RerankResult)
deriving Repr, DecidableEq

/-- `callReranker` from embedding.ts.  Returns the value of the promise
(`none` models returning `null`) paired with whether an HTTP `fetch` was
actually attempted. -/
def callReranker (_query : String) (outcome : RerankerOutcome)
    (candidates : List RelevantChunk) (limit : Nat) :
    Option (List RelevantChunk) × Bool :=
  if candidates.isEmpty then (some [], false)
  else
    match outcome with
    | .unconfigured => (none, false)
    | .invalidUrl => (none, false)
    | .fetchError => (none, true)
    | .httpError _ => (none, true)
    | .malformedBody => (none, true)
    | .results rs =>
      let merged := mergeResults rs candidates
      if merged.isEmpty then (none, true)
      else (some ((merged.insertionSort byScoreDesc).take limit), true)

/-- One row of the `embeddings` table. -/
structure EmbeddingRow where
  resourceId : Int
  vector : List ℚ
deriving Repr, DecidableEq

/-- One row of the `resources` table. -/
structure ResourceRow where
  id : Int
  content : String
  createdAt : Int
deriving Repr, DecidableEq

/-- One row of the retriever's SQL result set. -/
structure QueryRow where
  id : Int
  content : String
  created_at : Int
  distance : ℚ
deriving Repr, DecidableEq

/-- `ORDER BY distance ASC`. -/
def byDistAsc (a b : QueryRow) : Prop := a.distance ≤ b.distance

instance : DecidableRel byDistAsc :=
  fun a b => inferInstanceAs (Decidable (a.distance ≤ b.distance))

instance : IsTotal QueryRow byDistAsc := ⟨fun a b => le_total a.distance b.distance⟩

instance : IsTrans QueryRow byDistAsc := ⟨fun _ _ _ h h2 => le_trans h h2⟩

/-- The external world seen by one `findRelevantContent` call: the embedding
the provider returns for the prompt (`none` models a response with no
vector), the stored tables, the vector-distance function `<->` of the store,
and the reranker collaborator's behaviour. -/
structure RetrieverWorld where
  embedVec : Option (List ℚ)
  embeddings : List EmbeddingRow
  resources : List ResourceRow
  dist : List ℚ → List ℚ → ℚ
  reranker : RerankerOutcome

/-- The `FROM embeddings e INNER JOIN resources r ON r.id = e.resource_id`
join, before ordering. -/
def joinedRows (w : RetrieverWorld) (vec : List ℚ) : List QueryRow :=
  w.embeddings.flatMap (fun e =>
    (w.resources.filter (fun r => r.id == e.resourceId)).map
      (fun r => ⟨r.id, r.content, r.createdAt, w.dist e.vector vec⟩))

/-- The retriever's SQL query: join, order by distance ascending, `LIMIT k`. -/
def queryRows (w : RetrieverWorld) (vec : List ℚ) (k : Nat) : List QueryRow :=
  ((joinedRows w vec).insertionSort byDistAsc).take k

/-- The row-to-candidate mapping of `findRelevantContent`. -/
def rowToChunk (r : QueryRow) : RelevantChunk :=
  ⟨r.id, r.content, r.created_at, r.distance, none⟩

/-- `firstStageLimit = Math.min(Math.max(limit * FIRST_STAGE_MULTIPLIER, limit), FIRST_STAGE_MAX)`. -/
def firstStageLimitOf (limit : Nat) : Nat :=
  min (max (limit * FIRST_STAGE_MULTIPLIER) limit) FIRST_STAGE_MAX

/-- The first-stage candidate list (`baseResults` in the source). -/
def baseChunks (w : RetrieverWorld) (vec : List ℚ) (limit : Nat) : List RelevantChunk :=
  (queryRows w vec (firstStageLimitOf limit)).map rowToChunk

/-- Which external collaborators a `findRelevantContent` call contacted. -/
structure RetrievalTrace where
  embedderCalled : Bool
  storeQueried : Bool
  rerankerFetched : Bool
deriving Repr, DecidableEq

/-- `findRelevantContent` from embedding.ts (two-stage variant), paired with
its collaborator trace.  `Except.error` models a thrown exception.  In the
source, `prompt` abbreviates the trimmed question, `limit` the
`options?.limit ?? DEFAULT_LIMIT` default, and `baseResults`
(here `baseChunks`) the mapped first-stage rows; the bindings are inlined. -/
def findRelevantContent (question : String) (options : Option Nat)
    (w : RetrieverWorld) : Except String (List RelevantChunk) × RetrievalTrace :=
  if jsTrim question = "" then (.ok [], ⟨false, false, false⟩)
  else
    match w.embedVec with
    | none => (.error ("Failed to generate embedding for query"), ⟨true, false, false⟩)
    | some vec =>
      if vec.isEmpty then
        (.error ("Failed to generate embedding for query"), ⟨true, false, false⟩)
      else if (queryRows w vec (firstStageLimitOf (options.getD DEFAULT_LIMIT))).isEmpty then
        (.ok [], ⟨true, true, false⟩)
      else
        match callReranker (jsTrim question) w.reranker
            (baseChunks w vec (options.getD DEFAULT_LIMIT)) (options.getD DEFAULT_LIMIT) with
        | (some reranked, fetched) =>
          if reranked.isEmpty then
            (.ok ((baseChunks w vec (options.getD DEFAULT_LIMIT)).take (options.getD DEFAULT_LIMIT)),
              ⟨true, true, fetched⟩)
          else (.ok reranked, ⟨true, true, fetched⟩)
        | (none, fetched) =>
          (.ok ((baseChunks w vec (options.getD DEFAULT_LIMIT)).take (options.getD DEFAULT_LIMIT)),
            ⟨true, true, fetched⟩)

/-- The fallback condition of the spec: reranker unconfigured, unreachable,
non-success status, malformed body, or a merge that drops every result. -/
def rerankFailed (o : RerankerOutcome) (cands : List RelevantChunk) : Prop :=
  o = .unconfigured ∨ o = .invalidUrl ∨ o = .fetchError ∨
    (∃ s, o = .httpError s) ∨ o = .malformedBody ∨
    (∃ rs, o = .results rs ∧ mergeResults rs cands = [])

/-! ## Chat orchestrator (src/app/api/chat/route.ts, handler `POST`) -/

/-- Return value of `createResourceRaw` (src/lib/actions/resources.ts). -/
structure SavedResource where
  id : Int
  content : String
  createdAt : Int
deriving Repr, DecidableEq

deriving instance DecidableEq for Except

/-- One tool call of a model response.  `name` is `call.function?.name`
(JavaScript `undefined` rendered as a name outside the known set), and
`args` is the outcome of `JSON.parse(call.function?.arguments ?? "{}")`
followed by reading the single expected string field: `Except.error` models
a parse failure or a missing/ill-typed field, `Except.ok` the extracted
`content` / `question` string. -/
structure ToolCall where
  id : String
  name : String
  args : Except String String
deriving Repr, DecidableEq

/-- The value serialized into a `role:"tool"` message. -/
inductive ToolResult where
  | okSaved (r : SavedResource)
  | okChunks (cs : List RelevantChunk)
  | err (msg : String)
deriving Repr, DecidableEq

/-- One chat-completion outcome: a thrown call, a completion whose
`choices[0]?.message` is missing, or a message with content and tool calls
(`tool_calls` missing and `tool_calls` empty behave identically and are both
modelled by `[]`). -/
inductive ModelResp where
  | failure (err : String)
  | noMessage
  | message (content : Option String) (toolCalls : List ToolCall)
deriving Repr, DecidableEq

/-- The external world seen by one `POST` request: the ingestion action
`createResourceRaw` as an oracle from the `content` argument, and the
retriever's world for `getInformation`. -/
structure ChatWorld where
  create : String → Except String SavedResource
  retr : RetrieverWorld

def refusalMsg : String := "Unable to provide additional tool output at this time."

def savedMsg : String := "Saved."

def apologyMsg : String := "I\x27m sorry, I\x27m temporarily unable to answer your request."

def exhaustedMsg : String := "Unable to produce a final answer."

def noInfoMsg : String := "I\x27m sorry, but I don\x27t have the necessary information to answer that."

/-- The final-text branch: `msg.content && msg.content.trim().length > 0 ?
msg.content : noInfoMsg`. -/
def finalText (content : Option String) : String :=
  match content with
  | some s => if jsTrim s = "" then noInfoMsg else s
  | none => noInfoMsg

/-- Observable record of one `POST` run: how many chat-completion requests
were issued, how many loop iterations entered the tool-dispatch stage, which
calls were dispatched, and the `role:"tool"` messages appended (tool-call id
paired with the serialized result). -/
structure TurnLog where
  modelCalls : Nat
  dispatchSteps : Nat
  dispatched : List ToolCall
  toolMessages : List (String × ToolResult)
deriving Repr, DecidableEq

def TurnLog.init : TurnLog := ⟨0, 0, [], []⟩

def TurnLog.bumpModel (log : TurnLog) : TurnLog := { log with modelCalls := log.modelCalls + 1 }

def TurnLog.bumpDispatchStep (log : TurnLog) : TurnLog :=
  { log with dispatchSteps := log.dispatchSteps + 1 }

def TurnLog.recordDispatch (log : TurnLog) (c : ToolCall) : TurnLog :=
  { log with dispatched := log.dispatched ++ [c] }

def TurnLog.recordToolMessage (log : TurnLog) (c : ToolCall) (r : ToolResult) : TurnLog :=
  { log with toolMessages := log.toolMessages ++ [(c.id, r)] }

/-- Dispatch of one tool call (the body of `for (const call of msg.tool_calls)`).
`Sum.inl` is the `addResource` success path, which returns the "Saved."
response for the whole request; `Sum.inr` is the result value that gets
pushed as a tool message (tool errors are caught and converted, never
rethrown). -/
def dispatchOne (w : ChatWorld) (c : ToolCall) : SavedResource ⊕ ToolResult :=
  if c.name = "addResource" then
    match c.args with
    | .error e => .inr (.err e)
    | .ok content =>
      match w.create content with
      | .ok saved => .inl saved
      | .error e => .inr (.err e)
  else if c.name = "getInformation" then
    match c.args with
    | .error e => .inr (.err e)
    | .ok q =>
      match (findRelevantContent q none w.retr).1 with
      | .ok chunks => .inr (.okChunks chunks)
      | .error e => .inr (.err e)
  else .inr (.err ("Unknown tool: " ++ c.name))

/-- The tool-message payload a non-short-circuiting call produces (the
`result` variable of the source at the `messages.push` site); on the
`addResource` success path the value is unused because the request returns
before any push. -/
def dispatchResult (w : ChatWorld) (c : ToolCall) : ToolResult :=
  match dispatchOne w c with
  | .inl s => .okSaved s
  | .inr r => r

/-- A call on which `dispatchOne` short-circuits the whole request with
"Saved.": a successful `addResource`. -/
def shortCircuits (w : ChatWorld) (c : ToolCall) : Prop :=
  c.name = "addResource" ∧ ∃ a, c.args = .ok a ∧ ∃ s, w.create a = .ok s

instance (w : ChatWorld) (c : ToolCall) : Decidable (shortCircuits w c) :=
  match h : c.args with
  | .error _ =>
    .isFalse (fun ⟨_, _, ha, _⟩ => by rw [h] at ha; exact Except.noConfusion ha)
  | .ok a =>
    match hc : w.create a with
    | .ok s =>
      if hn : c.name = "addResource" then
        .isTrue ⟨hn, a, h, s, hc⟩
      else
        .isFalse (fun ⟨hn2, _⟩ => hn hn2)
    | .error _ =>
      .isFalse (fun ⟨_, a2, ha2, _, hs2⟩ => by
        rw [h] at ha2
        cases ha2
        rw [hc] at hs2
        exact Except.noConfusion hs2)

/-- The inner dispatch loop over `msg.tool_calls`.  `Except.error` models the
early `return new Response("Saved.", ...)`; `Except.ok` means every call was
dispatched and its tool message appended. -/
def runCalls (w : ChatWorld) : List ToolCall → TurnLog → Except TurnLog TurnLog
  | [], log => .ok log
  | c :: rest, log =>
    match dispatchOne w c with
    | .inl _saved => .error (log.recordDispatch c)
    | .inr res => runCalls w rest ((log.recordDispatch c).recordToolMessage c res)

/-- The result of one `POST` request: the plain-text response body plus the
observable log. -/
structure RunResult where
  text : String
  log : TurnLog
deriving Repr, DecidableEq

/-- The `for (let step = 0; step < 3; step++)` loop of `POST`.  `fuel` is the
number of remaining iterations, `step` the current index into the model's
responses, `toolUsed` the flag of the source. -/
def runLoop (w : ChatWorld) (resps : Nat → ModelResp) :
    Nat → Nat → Bool → TurnLog → RunResult
  | _step, 0, _toolUsed, log => ⟨exhaustedMsg, log⟩
  | step, fuel + 1, toolUsed, log =>
    match resps step with
    | .failure _e => ⟨apologyMsg, log.bumpModel⟩
    | .noMessage => ⟨exhaustedMsg, log.bumpModel⟩
    | .message content calls =>
      if calls.isEmpty then ⟨finalText content, log.bumpModel⟩
      else if toolUsed then ⟨refusalMsg, log.bumpModel⟩
      else
        match runCalls w calls log.bumpModel.bumpDispatchStep with
        | .error log2 => ⟨savedMsg, log2⟩
        | .ok log2 => runLoop w resps (step + 1) fuel true log2

/-- The `POST` handler's model/tool loop for one request whose body parsed
and whose history is nonempty: up to three model round-trips starting with
`toolUsed = false`. -/
def POST (w : ChatWorld) (resps : Nat → ModelResp) : RunResult :=
  runLoop w resps 0 3 false TurnLog.init

/-! ## Concrete fixtures used by witnesses and counterexamples -/

def candA : RelevantChunk := ⟨1, "alpha", 10, 1, none⟩

def candB : RelevantChunk := ⟨2, "beta", 20, 2, none⟩

def rrB : RerankResult := ⟨"2", none, none, some 9⟩

def rsTest : List RerankResult := [rrB]

def outTest : List RelevantChunk := [⟨2, "beta", 20, 2, some 9⟩]

def wTest : RetrieverWorld :=
  { embedVec := some [1]
    embeddings := [⟨1, [1]⟩, ⟨2, [2]⟩]
    resources := [⟨1, "alpha", 10⟩, ⟨2, "beta", 20⟩]
    dist := fun e _ => e.headI
    reranker := .unconfigured }

def wFail : RetrieverWorld := { wTest with reranker := .fetchError }

def wOrphan : RetrieverWorld :=
  { wTest with
    embeddings := [⟨1, [1]⟩]
    resources := [⟨1, "alpha", 10⟩, ⟨2, "orphan", 30⟩] }

def cAddT : ToolCall := ⟨"call-1", "addResource", .ok ("fact")⟩

def cGetT : ToolCall := ⟨"call-2", "getInformation", .ok ("q")⟩

def cwTest : ChatWorld := { create := fun s => .ok ⟨7, s, 0⟩, retr := wTest }

def respsTwoTools : Nat → ModelResp := fun _ => .message none [cGetT]

def respsAddGet : Nat → ModelResp := fun n =>
  if n = 0 then .message none [cAddT, cGetT] else .noMessage

def respsAddOnly : Nat → ModelResp := fun n =>
  if n = 0 then .message none [cAddT] else .noMessage

def respsGetOnly : Nat → ModelResp := fun n =>
  if n = 0 then .message none [cGetT] else .message (some ("ans")) []

def respsNoMsg : Nat → ModelResp := fun _ => .noMessage

def respsFail : Nat → ModelResp := fun _ => .failure ("boom")

def itemNum : RerankResultU := ⟨"1", some (.num 3), none, none⟩

/-! ## Helper lemmas: retriever -/

lemma mergeResults_nil (rs : List RerankResult) : mergeResults rs [] = [] := by
  simp [mergeResults, lookupById]

lemma mem_mergeResults {c : RelevantChunk} {rs : List RerankResult}
    {cands : List RelevantChunk} (h : c ∈ mergeResults rs cands) :
    ∃ it ∈ rs, ∃ b ∈ cands, toString b.id = it.id ∧ c = applyRerank b it := by
  rw [mergeResults, List.mem_filterMap] at h
  obtain ⟨it, hit, heq⟩ := h
  rw [Option.map_eq_some'] at heq
  obtain ⟨b, hb, hc⟩ := heq
  rw [lookupById] at hb
  have hbmem := List.mem_of_getLast?_eq_some hb
  rw [List.mem_filter] at hbmem
  exact ⟨it, hit, b, hbmem.1, by simpa using hbmem.2, hc.symm⟩

lemma applyRerank_id (base : RelevantChunk) (item : RerankResult) :
    (applyRerank base item).id = base.id := rfl

lemma applyRerank_createdAt (base : RelevantChunk) (item : RerankResult) :
    (applyRerank base item).createdAt = base.createdAt := rfl

lemma callReranker_results_some {q : String} {rs : List RerankResult}
    {cands : List RelevantChunk} {limit : Nat} {out : List RelevantChunk} {fetched : Bool}
    (h : callReranker q (.results rs) cands limit = (some out, fetched)) :
    out = ((mergeResults rs cands).insertionSort byScoreDesc).take limit := by
  unfold callReranker at h
  by_cases hc : cands.isEmpty
  · rw [if_pos hc] at h
    obtain rfl : cands = [] := List.isEmpty_iff.mp hc
    simp only [Prod.mk.injEq, Option.some.injEq] at h
    rw [← h.1, mergeResults_nil]
    simp [List.insertionSort]
  · rw [if_neg hc] at h
    dsimp only at h
    by_cases hm : (mergeResults rs cands).isEmpty
    · rw [if_pos hm] at h
      simp at h
    · rw [if_neg hm] at h
      simp only [Prod.mk.injEq, Option.some.injEq] at h
      exact h.1.symm

lemma callReranker_some_length {q : String} {o : RerankerOutcome}
    {cands : List RelevantChunk} {limit : Nat} {out : List RelevantChunk} {fetched : Bool}
    (h : callReranker q o cands limit = (some out, fetched)) : out.length ≤ limit := by
  unfold callReranker at h
  by_cases hc : cands.isEmpty
  · rw [if_pos hc] at h
    simp only [Prod.mk.injEq, Option.some.injEq] at h
    rw [← h.1]
    simp
  · rw [if_neg hc] at h
    cases o with
    | unconfigured => simp at h
    | invalidUrl => simp at h
    | fetchError => simp at h
    | httpError s => simp at h
    | malformedBody => simp at h
    | results rs =>
      dsimp only at h
      by_cases hm : (mergeResults rs cands).isEmpty
      · rw [if_pos hm] at h
        simp at h
      · rw [if_neg hm] at h
        simp only [Prod.mk.injEq, Option.some.injEq] at h
        rw [← h.1]
        exact List.length_take_le _ _

lemma mem_callReranker {q : String} {o : RerankerOutcome}
    {cands : List RelevantChunk} {limit : Nat} {out : List RelevantChunk} {fetched : Bool}
    (h : callReranker q o cands limit = (some out, fetched)) :
    ∀ c ∈ out, ∃ b ∈ cands, c.id = b.id ∧ c.createdAt = b.createdAt := by
  unfold callReranker at h
  by_cases hc : cands.isEmpty
  · rw [if_pos hc] at h
    simp only [Prod.mk.injEq, Option.some.injEq] at h
    rw [← h.1]
    intro c hmem
    cases hmem
  · rw [if_neg hc] at h
    cases o with
    | unconfigured => simp at h
    | invalidUrl => simp at h
    | fetchError => simp at h
    | httpError s => simp at h
    | malformedBody => simp at h
    | results rs =>
      dsimp only at h
      by_cases hm : (mergeResults rs cands).isEmpty
      · rw [if_pos hm] at h
        simp at h
      · rw [if_neg hm] at h
        simp only [Prod.mk.injEq, Option.some.injEq] at h
        intro c hmem
        rw [← h.1] at hmem
        have hmerge : c ∈ mergeResults rs cands :=
          (List.mem_insertionSort byScoreDesc).1 (List.mem_of_mem_take hmem)
        obtain ⟨it, -, b, hb, -, rfl⟩ := mem_mergeResults hmerge
        exact ⟨b, hb, rfl, rfl⟩

lemma callReranker_fail_fst {q : String} {o : RerankerOutcome}
    {cands : List RelevantChunk} {limit : Nat}
    (hne : ¬ cands.isEmpty) (hfail : rerankFailed o cands) :
    (callReranker q o cands limit).1 = none := by
  unfold callReranker
  rw [if_neg hne]
  rcases hfail with rfl | rfl | rfl | ⟨s, rfl⟩ | rfl | ⟨rs, rfl, hm⟩
  · rfl
  · rfl
  · rfl
  · rfl
  · rfl
  · simp [hm]

lemma callReranker_unconfigured {q : String} {cands : List RelevantChunk} {limit : Nat}
    (hne : ¬ cands.isEmpty) :
    callReranker q .unconfigured cands limit = (none, false) := by
  unfold callReranker
  rw [if_neg hne]

lemma mem_joinedRows {w : RetrieverWorld} {vec : List ℚ} {row : QueryRow}
    (h : row ∈ joinedRows w vec) : ∃ e ∈ w.embeddings, e.resourceId = row.id := by
  rw [joinedRows, List.mem_flatMap] at h
  obtain ⟨e, he, hrow⟩ := h
  rw [List.mem_map] at hrow
  obtain ⟨rr, hrr, hmk⟩ := hrow
  rw [List.mem_filter] at hrr
  have hid : rr.id = e.resourceId := by simpa using hrr.2
  refine ⟨e, he, ?_⟩
  rw [← hmk]
  exact hid.symm

lemma mem_queryRows {w : RetrieverWorld} {vec : List ℚ} {k : Nat} {row : QueryRow}
    (h : row ∈ queryRows w vec k) : row ∈ joinedRows w vec :=
  (List.mem_insertionSort byDistAsc).1 (List.mem_of_mem_take h)

lemma mem_baseChunks {w : RetrieverWorld} {vec : List ℚ} {limit : Nat} {c : RelevantChunk}
    (h : c ∈ baseChunks w vec limit) : ∃ e ∈ w.embeddings, e.resourceId = c.id := by
  rw [baseChunks, List.mem_map] at h
  obtain ⟨row, hrow, rfl⟩ := h
  obtain ⟨e, he, hid⟩ := mem_joinedRows (mem_queryRows hrow)
  exact ⟨e, he, hid⟩

lemma find_ok_mem_embeddings {q : String} {opts : Option Nat} {w : RetrieverWorld}
    {res : List RelevantChunk} {tr : RetrievalTrace}
    (h : findRelevantContent q opts w = (.ok res, tr)) :
    ∀ c ∈ res, ∃ e ∈ w.embeddings, e.resourceId = c.id := by
  unfold findRelevantContent at h
  by_cases hq : jsTrim q = ""
  · rw [if_pos hq] at h
    simp only [Prod.mk.injEq, Except.ok.injEq] at h
    rw [← h.1]
    intro c hc
    cases hc
  · rw [if_neg hq] at h
    cases hv : w.embedVec with
    | none => rw [hv] at h; simp at h
    | some vec =>
      rw [hv] at h
      dsimp only at h
      by_cases hvec : vec.isEmpty
      · rw [if_pos hvec] at h
        simp at h
      · rw [if_neg hvec] at h
        by_cases hrows : (queryRows w vec (firstStageLimitOf (opts.getD DEFAULT_LIMIT))).isEmpty
        · rw [if_pos hrows] at h
          simp only [Prod.mk.injEq, Except.ok.injEq] at h
          rw [← h.1]
          intro c hc
          cases hc
        · rw [if_neg hrows] at h
          cases hcr : callReranker (jsTrim q) w.reranker
              (baseChunks w vec (opts.getD DEFAULT_LIMIT)) (opts.getD DEFAULT_LIMIT) with
          | mk rr fetched =>
            rw [hcr] at h
            cases rr with
            | none =>
              dsimp only at h
              simp only [Prod.mk.injEq, Except.ok.injEq] at h
              rw [← h.1]
              intro c hc
              exact mem_baseChunks (List.mem_of_mem_take hc)
            | some reranked =>
              dsimp only at h
              by_cases hre : reranked.isEmpty
              · rw [if_pos hre] at h
                simp only [Prod.mk.injEq, Except.ok.injEq] at h
                rw [← h.1]
                intro c hc
                exact mem_baseChunks (List.mem_of_mem_take hc)
              · rw [if_neg hre] at h
                simp only [Prod.mk.injEq, Except.ok.injEq] at h
                rw [← h.1]
                intro c hc
                obtain ⟨b, hb, hid, -⟩ := mem_callReranker hcr c hc
                obtain ⟨e, he, hei⟩ := mem_baseChunks hb
                exact ⟨e, he, by rw [hei, hid]⟩

lemma find_ok_cases {q : String} {opts : Option Nat} {w : RetrieverWorld}
    {res : List RelevantChunk} {tr : RetrievalTrace}
    (h : findRelevantContent q opts w = (.ok res, tr)) :
    res = [] ∨
    (∃ vec, w.embedVec = some vec ∧
      res = (baseChunks w vec (opts.getD DEFAULT_LIMIT)).take (opts.getD DEFAULT_LIMIT)) ∨
    (∃ vec fetched, w.embedVec = some vec ∧
      callReranker (jsTrim q) w.reranker (baseChunks w vec (opts.getD DEFAULT_LIMIT))
        (opts.getD DEFAULT_LIMIT) = (some res, fetched)) := by
  unfold findRelevantContent at h
  by_cases hq : jsTrim q = ""
  · rw [if_pos hq] at h
    simp only [Prod.mk.injEq, Except.ok.injEq] at h
    exact Or.inl h.1.symm
  · rw [if_neg hq] at h
    cases hv : w.embedVec with
    | none => rw [hv] at h; simp at h
    | some vec =>
      rw [hv] at h
      dsimp only at h
      by_cases hvec : vec.isEmpty
      · rw [if_pos hvec] at h
        simp at h
      · rw [if_neg hvec] at h
        by_cases hrows : (queryRows w vec (firstStageLimitOf (opts.getD DEFAULT_LIMIT))).isEmpty
        · rw [if_pos hrows] at h
          simp only [Prod.mk.injEq, Except.ok.injEq] at h
          exact Or.inl h.1.symm
        · rw [if_neg hrows] at h
          cases hcr : callReranker (jsTrim q) w.reranker
              (baseChunks w vec (opts.getD DEFAULT_LIMIT)) (opts.getD DEFAULT_LIMIT) with
          | mk rr fetched =>
            rw [hcr] at h
            cases rr with
            | none =>
              dsimp only at h
              simp only [Prod.mk.injEq, Except.ok.injEq] at h
              exact Or.inr (Or.inl ⟨vec, rfl, h.1.symm⟩)
            | some reranked =>
              dsimp only at h
              by_cases hre : reranked.isEmpty
              · rw [if_pos hre] at h
                simp only [Prod.mk.injEq, Except.ok.injEq] at h
                exact Or.inr (Or.inl ⟨vec, rfl, h.1.symm⟩)
              · rw [if_neg hre] at h
                simp only [Prod.mk.injEq, Except.ok.injEq] at h
                rw [h.1] at hcr
                exact Or.inr (Or.inr ⟨vec, fetched, rfl, hcr⟩)

lemma find_trim_empty {q : String} {opts : Option Nat} {w : RetrieverWorld}
    (hq : jsTrim q = "") :
    findRelevantContent q opts w = (.ok [], ⟨false, false, false⟩) := by
  unfold findRelevantContent
  rw [if_pos hq]

lemma find_vec_empty {q : String} {opts : Option Nat} {w : RetrieverWorld} {vec : List ℚ}
    (hq : jsTrim q ≠ "") (hv : w.embedVec = some vec) (hvec : vec.isEmpty) :
    findRelevantContent q opts w =
      (.error ("Failed to generate embedding for query"), ⟨true, false, false⟩) := by
  unfold findRelevantContent
  rw [if_neg hq, hv]
  dsimp only
  rw [if_pos hvec]

lemma find_rows_empty {q : String} {opts : Option Nat} {w : RetrieverWorld} {vec : List ℚ}
    (hq : jsTrim q ≠ "") (hv : w.embedVec = some vec) (hvec : ¬ vec.isEmpty)
    (hrows : (queryRows w vec (firstStageLimitOf (opts.getD DEFAULT_LIMIT))).isEmpty) :
    findRelevantContent q opts w = (.ok [], ⟨true, true, false⟩) := by
  unfold findRelevantContent
  rw [if_neg hq, hv]
  dsimp only
  rw [if_neg hvec, if_pos hrows]

lemma find_main_eq {q : String} {opts : Option Nat} {w : RetrieverWorld} {vec : List ℚ}
    (hq : jsTrim q ≠ "") (hv : w.embedVec = some vec) (hvec : ¬ vec.isEmpty)
    (hrows : ¬ (queryRows w vec (firstStageLimitOf (opts.getD DEFAULT_LIMIT))).isEmpty) :
    findRelevantContent q opts w =
      (match callReranker (jsTrim q) w.reranker
          (baseChunks w vec (opts.getD DEFAULT_LIMIT)) (opts.getD DEFAULT_LIMIT) with
       | (some reranked, fetched) =>
         if reranked.isEmpty then
           (.ok ((baseChunks w vec (opts.getD DEFAULT_LIMIT)).take (opts.getD DEFAULT_LIMIT)),
             ⟨true, true, fetched⟩)
         else (.ok reranked, ⟨true, true, fetched⟩)
       | (none, fetched) =>
         (.ok ((baseChunks w vec (opts.getD DEFAULT_LIMIT)).take (opts.getD DEFAULT_LIMIT)),
           ⟨true, true, fetched⟩)) := by
  unfold findRelevantContent
  rw [if_neg hq, hv]
  dsimp only
  rw [if_neg hvec, if_neg hrows]

/-! ## Helper lemmas: orchestrator -/

lemma dispatchOne_inl_shortCircuits {w : ChatWorld} {c : ToolCall} {s : SavedResource}
    (h : dispatchOne w c = .inl s) : shortCircuits w c := by
  unfold dispatchOne at h
  by_cases hn : c.name = "addResource"
  · rw [if_pos hn] at h
    cases ha : c.args with
    | error e => rw [ha] at h; cases h
    | ok a =>
      rw [ha] at h
      dsimp only at h
      cases hc : w.create a with
      | error e => rw [hc] at h; cases h
      | ok s2 => exact ⟨hn, a, ha, s2, hc⟩
  · rw [if_neg hn] at h
    by_cases hg : c.name = "getInformation"
    · rw [if_pos hg] at h
      cases ha : c.args with
      | error e => rw [ha] at h; cases h
      | ok q0 =>
        rw [ha] at h
        dsimp only at h
        cases hf : (findRelevantContent q0 none w.retr).1 with
        | ok cs => rw [hf] at h; cases h
        | error e => rw [hf] at h; cases h
    · rw [if_neg hg] at h
      cases h

lemma shortCircuits_dispatchOne {w : ChatWorld} {c : ToolCall}
    (h : shortCircuits w c) : ∃ s, dispatchOne w c = .inl s := by
  obtain ⟨hn, a, ha, s, hc⟩ := h
  refine ⟨s, ?_⟩
  unfold dispatchOne
  rw [if_pos hn, ha]
  dsimp only
  rw [hc]

lemma not_shortCircuits_dispatchOne {w : ChatWorld} {c : ToolCall}
    (h : ¬ shortCircuits w c) : ∃ r, dispatchOne w c = .inr r := by
  cases hd : dispatchOne w c with
  | inl s => exact absurd (dispatchOne_inl_shortCircuits hd) h
  | inr r => exact ⟨r, rfl⟩

lemma runCalls_ok_spec {w : ChatWorld} :
    ∀ {calls : List ToolCall} {log log2 : TurnLog}, runCalls w calls log = .ok log2 →
      log2.modelCalls = log.modelCalls ∧ log2.dispatchSteps = log.dispatchSteps ∧
      log.toolMessages <+ log2.toolMessages ∧
      ∀ c ∈ calls, ∃ r, (c.id, r) ∈ log2.toolMessages := by
  intro calls
  induction calls with
  | nil =>
    intro log log2 h
    cases h
    exact ⟨rfl, rfl, List.Sublist.refl _, fun c hc => absurd hc (List.not_mem_nil c)⟩
  | cons c rest ih =>
    intro log log2 h
    rw [runCalls] at h
    cases hd : dispatchOne w c with
    | inl s => rw [hd] at h; cases h
    | inr r =>
      rw [hd] at h
      dsimp only at h
      obtain ⟨h1, h2, h3, h4⟩ := ih h
      have hmsgs : ((log.recordDispatch c).recordToolMessage c r).toolMessages =
          log.toolMessages ++ [(c.id, r)] := rfl
      refine ⟨h1, h2, ?_, ?_⟩
      · calc log.toolMessages <+ log.toolMessages ++ [(c.id, r)] :=
              List.sublist_append_left _ _
          _ <+ log2.toolMessages := by rw [← hmsgs]; exact h3
      · intro c2 hc2
        rcases List.mem_cons.mp hc2 with rfl | htail
        · refine ⟨r, ?_⟩
          have : (c2.id, r) ∈ log.toolMessages ++ [(c2.id, r)] := by simp
          rw [← hmsgs] at this
          exact h3.subset this
        · exact h4 c2 htail

lemma runCalls_error_spec {w : ChatWorld} :
    ∀ {calls : List ToolCall} {log log2 : TurnLog}, runCalls w calls log = .error log2 →
      log2.modelCalls = log.modelCalls ∧ log2.dispatchSteps = log.dispatchSteps ∧
      log.toolMessages <+ log2.toolMessages ∧
      ∃ c ∈ calls, shortCircuits w c := by
  intro calls
  induction calls with
  | nil =>
    intro log log2 h
    cases h
  | cons c rest ih =>
    intro log log2 h
    rw [runCalls] at h
    cases hd : dispatchOne w c with
    | inl s =>
      rw [hd] at h
      cases h
      exact ⟨rfl, rfl, List.Sublist.refl _,
        c, List.mem_cons_self c rest, dispatchOne_inl_shortCircuits hd⟩
    | inr r =>
      rw [hd] at h
      dsimp only at h
      obtain ⟨h1, h2, h3, cS, hcS, hsc⟩ := ih h
      have hmsgs : ((log.recordDispatch c).recordToolMessage c r).toolMessages =
          log.toolMessages ++ [(c.id, r)] := rfl
      refine ⟨h1, h2, ?_, cS, List.mem_cons_of_mem c hcS, hsc⟩
      calc log.toolMessages <+ log.toolMessages ++ [(c.id, r)] :=
            List.sublist_append_left _ _
        _ <+ log2.toolMessages := by rw [← hmsgs]; exact h3

lemma runCalls_short {w : ChatWorld} {c : ToolCall} (hsc : shortCircuits w c) :
    ∀ (pre post : List ToolCall) (log : TurnLog),
      (∀ c2 ∈ pre, ¬ shortCircuits w c2) →
      ∃ log2, runCalls w (pre ++ c :: post) log = .error log2 ∧
        log2.modelCalls = log.modelCalls := by
  intro pre
  induction pre with
  | nil =>
    intro post log _
    obtain ⟨s, hd⟩ := shortCircuits_dispatchOne hsc
    refine ⟨log.recordDispatch c, ?_, rfl⟩
    rw [List.nil_append, runCalls, hd]
  | cons c2 pre2 ih =>
    intro post log hpre
    obtain ⟨r, hd⟩ := not_shortCircuits_dispatchOne (hpre c2 (List.mem_cons_self _ _))
    obtain ⟨log2, hrc, hmc⟩ :=
      ih post ((log.recordDispatch c2).recordToolMessage c2 r)
        (fun x hx => hpre x (List.mem_cons_of_mem _ hx))
    refine ⟨log2, ?_, hmc.trans rfl⟩
    rw [List.cons_append, runCalls, hd]
    exact hrc

lemma dispatchResult_eq_inr {w : ChatWorld} {c : ToolCall} {r : ToolResult}
    (h : dispatchOne w c = .inr r) : dispatchResult w c = r := by
  unfold dispatchResult
  rw [h]

lemma runCalls_no_sc_eq {w : ChatWorld} :
    ∀ (calls : List ToolCall) (log : TurnLog), (∀ c ∈ calls, ¬ shortCircuits w c) →
      runCalls w calls log = .ok ⟨log.modelCalls, log.dispatchSteps,
        log.dispatched ++ calls,
        log.toolMessages ++ calls.map (fun c => (c.id, dispatchResult w c))⟩ := by
  intro calls
  induction calls with
  | nil =>
    intro log _
    simp [runCalls]
  | cons c rest ih =>
    intro log hns
    obtain ⟨r, hd⟩ := not_shortCircuits_dispatchOne (hns c (List.mem_cons_self _ _))
    rw [runCalls, hd]
    dsimp only
    rw [ih ((log.recordDispatch c).recordToolMessage c r)
      (fun x hx => hns x (List.mem_cons_of_mem _ hx))]
    simp [TurnLog.recordDispatch, TurnLog.recordToolMessage, dispatchResult_eq_inr hd,
      List.append_assoc]

lemma runCalls_sc_eq {w : ChatWorld} {c : ToolCall} (hsc : shortCircuits w c) :
    ∀ (pre post : List ToolCall) (log : TurnLog), (∀ c2 ∈ pre, ¬ shortCircuits w c2) →
      runCalls w (pre ++ c :: post) log = .error ⟨log.modelCalls, log.dispatchSteps,
        log.dispatched ++ pre ++ [c],
        log.toolMessages ++ pre.map (fun c2 => (c2.id, dispatchResult w c2))⟩ := by
  intro pre
  induction pre with
  | nil =>
    intro post log _
    obtain ⟨s, hd⟩ := shortCircuits_dispatchOne hsc
    rw [List.nil_append, runCalls, hd]
    simp [TurnLog.recordDispatch]
  | cons c2 pre2 ih =>
    intro post log hns
    obtain ⟨r, hd⟩ := not_shortCircuits_dispatchOne (hns c2 (List.mem_cons_self _ _))
    rw [List.cons_append, runCalls, hd]
    dsimp only
    rw [ih post ((log.recordDispatch c2).recordToolMessage c2 r)
      (fun x hx => hns x (List.mem_cons_of_mem _ hx))]
    simp [TurnLog.recordDispatch, TurnLog.recordToolMessage, dispatchResult_eq_inr hd,
      List.append_assoc]

lemma runLoop_used_refusal {w : ChatWorld} {resps : Nat → ModelResp}
    {step fuel : Nat} {log : TurnLog} {content : Option String} {calls : List ToolCall}
    (hresp : resps step = .message content calls) (hne : calls ≠ []) :
    runLoop w resps step (fuel + 1) true log = ⟨refusalMsg, log.bumpModel⟩ := by
  rw [runLoop, hresp]
  dsimp only
  rw [if_neg (by simpa using hne), if_pos rfl]

lemma runLoop_used_dispatchSteps {w : ChatWorld} {resps : Nat → ModelResp} :
    ∀ (fuel step : Nat) (log : TurnLog),
      ((runLoop w resps step fuel true log).log).dispatchSteps = log.dispatchSteps := by
  intro fuel step log
  cases fuel with
  | zero => rfl
  | succ fuel =>
    rw [runLoop]
    cases resps step with
    | failure e => rfl
    | noMessage => rfl
    | message content calls =>
      dsimp only
      by_cases hemp : calls.isEmpty
      · rw [if_pos hemp]
        rfl
      · rw [if_neg hemp, if_pos rfl]
        rfl

lemma runLoop_false_dispatchSteps {w : ChatWorld} {resps : Nat → ModelResp} :
    ∀ (fuel step : Nat) (log : TurnLog),
      ((runLoop w resps step fuel false log).log).dispatchSteps ≤ log.dispatchSteps + 1 := by
  intro fuel step log
  cases fuel with
  | zero => exact Nat.le_succ _
  | succ fuel =>
    rw [runLoop]
    cases resps step with
    | failure e => exact Nat.le_succ _
    | noMessage => exact Nat.le_succ _
    | message content calls =>
      dsimp only
      by_cases hemp : calls.isEmpty
      · rw [if_pos hemp]
        exact Nat.le_succ _
      · rw [if_neg hemp, if_neg Bool.false_ne_true]
        cases hrc : runCalls w calls log.bumpModel.bumpDispatchStep with
        | error log2 =>
          dsimp only
          have h2 := (runCalls_error_spec hrc).2.1
          exact le_of_eq (h2.trans rfl)
        | ok log2 =>
          dsimp only
          have h2 := (runCalls_ok_spec hrc).2.1
          rw [runLoop_used_dispatchSteps]
          exact le_of_eq (h2.trans rfl)

lemma runLoop_toolMessages_sublist {w : ChatWorld} {resps : Nat → ModelResp} :
    ∀ (fuel step : Nat) (toolUsed : Bool) (log : TurnLog),
      log.toolMessages <+ ((runLoop w resps step fuel toolUsed log).log).toolMessages := by
  intro fuel
  induction fuel with
  | zero => intro step tu log; exact List.Sublist.refl _
  | succ fuel ih =>
    intro step tu log
    rw [runLoop]
    cases resps step with
    | failure e => exact List.Sublist.refl _
    | noMessage => exact List.Sublist.refl _
    | message content calls =>
      dsimp only
      by_cases hemp : calls.isEmpty
      · rw [if_pos hemp]
        exact List.Sublist.refl _
      · rw [if_neg hemp]
        by_cases htu : tu = true
        · rw [if_pos htu]
          exact List.Sublist.refl _
        · rw [if_neg htu]
          cases hrc : runCalls w calls log.bumpModel.bumpDispatchStep with
          | error log2 =>
            dsimp only
            exact (runCalls_error_spec hrc).2.2.1
          | ok log2 =>
            dsimp only
            exact ((runCalls_ok_spec hrc).2.2.1).trans (ih (step + 1) true log2)

/-! ## Claim theorems -/

/-- Claim C1: for every conversation turn handled by the chat orchestrator, at
most one tool-dispatch step is executed; and whenever the model's response
contains a tool call while `toolUsed` is already true, the orchestrator
returns the fixed refusal string without invoking any tool (the log is
unchanged apart from counting the model call). -/
theorem toolOrchestrator_at_most_one_dispatch (w : ChatWorld) (resps : Nat → ModelResp) :
    (POST w resps).log.dispatchSteps ≤ 1 ∧
    ∀ (step fuel : Nat) (log : TurnLog) (content : Option String) (calls : List ToolCall),
      resps step = .message content calls → calls ≠ [] →
      runLoop w resps step (fuel + 1) true log = ⟨refusalMsg, log.bumpModel⟩ := by
  constructor
  · have h := @runLoop_false_dispatchSteps w resps 3 0 TurnLog.init
    simpa [POST, TurnLog.init] using h
  · intro step fuel log content calls hresp hne
    exact runLoop_used_refusal hresp hne

/-- Witness for C1 at a concrete run in which the model requests a tool on
both round-trips. -/
theorem toolOrchestrator_at_most_one_dispatch_witness :
    (POST cwTest respsTwoTools).log.dispatchSteps ≤ 1 ∧
    runLoop cwTest respsTwoTools 1 2 true ⟨1, 1, [cGetT], []⟩ =
      ⟨refusalMsg, TurnLog.bumpModel ⟨1, 1, [cGetT], []⟩⟩ :=
  ⟨(toolOrchestrator_at_most_one_dispatch cwTest respsTwoTools).1,
   (toolOrchestrator_at_most_one_dispatch cwTest respsTwoTools).2 1 1 ⟨1, 1, [cGetT], []⟩
     none [cGetT] rfl (by decide)⟩

/-- Claim C2: for every limit at least one and every query, a successful
`findRelevantContent` result has length at most the limit, in every branch. -/
theorem retriever_output_length_le_limit (q : String) (opts : Option Nat)
    (w : RetrieverWorld) (res : List RelevantChunk) (tr : RetrievalTrace)
    (_hlim : 1 ≤ opts.getD DEFAULT_LIMIT)
    (h : findRelevantContent q opts w = (.ok res, tr)) :
    res.length ≤ opts.getD DEFAULT_LIMIT := by
  rcases find_ok_cases h with rfl | ⟨vec, -, rfl⟩ | ⟨vec, fetched, -, hcr⟩
  · exact Nat.zero_le _
  · exact List.length_take_le _ _
  · exact callReranker_some_length hcr

/-- Witness for C2 on a two-row corpus with limit one. -/
theorem retriever_output_length_le_limit_witness :
    1 ≤ (some 1 : Option Nat).getD DEFAULT_LIMIT ∧
    ([⟨1, "alpha", 10, 1, none⟩] : List RelevantChunk).length ≤
      (some 1 : Option Nat).getD DEFAULT_LIMIT :=
  ⟨by decide,
   retriever_output_length_le_limit (" hi ") (some 1) wTest
     [⟨1, "alpha", 10, 1, none⟩] ⟨true, true, false⟩ (by decide) (by decide)⟩

/-- Claim C8: a question that is empty after trimming yields an empty result
with no embedder, store, or reranker interaction, and no error. -/
theorem empty_question_no_calls (q : String) (opts : Option Nat) (w : RetrieverWorld)
    (h : jsTrim q = "") :
    findRelevantContent q opts w = (.ok [], ⟨false, false, false⟩) := by
  unfold findRelevantContent
  rw [if_pos h]

/-- Witness for C8 on a whitespace-only question. -/
theorem empty_question_no_calls_witness :
    findRelevantContent ("  ") none wTest = (.ok [], ⟨false, false, false⟩) :=
  empty_question_no_calls ("  ") none wTest (by decide)

/-- Claim C9: a resource row persisted without a matching embeddings row is
never surfaced by the retriever, because the query joins resources through
the embeddings table. -/
theorem orphan_chunk_never_surfaced (q : String) (opts : Option Nat) (w : RetrieverWorld)
    (r : ResourceRow) (res : List RelevantChunk) (tr : RetrievalTrace)
    (_hr : r ∈ w.resources)
    (horph : ∀ e ∈ w.embeddings, e.resourceId ≠ r.id)
    (h : findRelevantContent q opts w = (.ok res, tr)) :
    ∀ c ∈ res, c.id ≠ r.id := by
  intro c hc
  obtain ⟨e, he, hei⟩ := find_ok_mem_embeddings h c hc
  intro hcontra
  exact horph e he (by rw [hei, hcontra])

/-- Witness for C9 on a corpus whose second resource has no embedding row. -/
theorem orphan_chunk_never_surfaced_witness :
    (⟨1, "alpha", 10, 1, none⟩ : RelevantChunk).id ≠ (2 : Int) :=
  orphan_chunk_never_surfaced (" hi ") (some 1) wOrphan ⟨2, "orphan", 30⟩
    [⟨1, "alpha", 10, 1, none⟩] ⟨true, true, false⟩ (by decide) (by decide) (by decide)
    ⟨1, "alpha", 10, 1, none⟩ (List.mem_cons_self _ [])

/-- Claim C4: in the rerank-merge step, unmatched reranker results are
dropped, the merged candidates are sorted by rerank score descending with
ties keeping the original (stable) order, the output is the sorted merge
truncated to the limit, and every output id comes from the first-stage
candidate set. -/
theorem reranker_merge_sorted_ids (q : String) (rs : List RerankResult)
    (cands : List RelevantChunk) (limit : Nat) (out : List RelevantChunk) (fetched : Bool)
    (h : callReranker q (.results rs) cands limit = (some out, fetched)) :
    out = ((mergeResults rs cands).insertionSort byScoreDesc).take limit ∧
    List.Sorted byScoreDesc out ∧
    out.length ≤ limit ∧
    (∀ c ∈ out, ∃ b ∈ cands, ∃ it ∈ rs, toString b.id = it.id ∧ c.id = b.id) ∧
    (∀ a b : RelevantChunk, [a, b] <+ mergeResults rs cands → scoreOf a = scoreOf b →
      [a, b] <+ (mergeResults rs cands).insertionSort byScoreDesc) := by
  have heq := callReranker_results_some h
  refine ⟨heq, ?_, callReranker_some_length h, ?_, ?_⟩
  · rw [heq]
    exact (List.sorted_insertionSort byScoreDesc _).sublist (List.take_sublist _ _)
  · intro c hc
    rw [heq] at hc
    have hmerge : c ∈ mergeResults rs cands :=
      (List.mem_insertionSort byScoreDesc).1 (List.mem_of_mem_take hc)
    obtain ⟨it, hit, b, hb, hbid, rfl⟩ := mem_mergeResults hmerge
    exact ⟨b, hb, it, hit, hbid, rfl⟩
  · intro a b hab hscore
    exact List.pair_sublist_insertionSort (le_of_eq hscore.symm) hab

/-- Witness for C4: two candidates, one rerank result naming the second. -/
theorem reranker_merge_sorted_ids_witness :
    outTest = ((mergeResults rsTest [candA, candB]).insertionSort byScoreDesc).take 1 ∧
    List.Sorted byScoreDesc outTest ∧
    outTest.length ≤ 1 ∧
    (∀ c ∈ outTest, ∃ b ∈ [candA, candB], ∃ it ∈ rsTest,
      toString b.id = it.id ∧ c.id = b.id) ∧
    (∀ a b : RelevantChunk, [a, b] <+ mergeResults rsTest [candA, candB] →
      scoreOf a = scoreOf b →
      [a, b] <+ (mergeResults rsTest [candA, candB]).insertionSort byScoreDesc) :=
  reranker_merge_sorted_ids ("q") rsTest [candA, candB] 1 outTest true (by decide)

/-- Counterexample to claim C10 as stated: the source guards `distance` and
`rerank_score` with `typeof ... === "number"` but puts no type check on
`content` — `item.content ?? base.content` keeps any non-nullish JSON value.
A reranker result carrying the numeric content 3 therefore replaces the
first-stage string content even though the supplied replacement is not of
the expected string type. -/
theorem rerank_merge_frame_counterexample :
    ¬ (∀ c ∈ mergeResultsU [itemNum] [candA],
        c.content = JsonValue.str (candA.content) ∨
        itemNum.content.map JsonValue.isStr = some true) := by
  decide

/-- Claim C10 as amended: every rerank-merged candidate keeps the id and
creation timestamp of its matching first-stage candidate; `distance` and
`rerankScore` differ from the first-stage values only when the reranker item
supplies a numeric replacement; `content`, by contrast, is replaced by
whatever non-nullish value the item supplies — string or not — and only a
missing or null `content` keeps the first-stage text. -/
theorem rerank_merge_frame (rs : List RerankResultU) (cands : List RelevantChunk) :
    ∀ c ∈ mergeResultsU rs cands, ∃ b ∈ cands, ∃ it ∈ rs,
      toString b.id = it.id ∧
      c.id = b.id ∧ c.createdAt = b.createdAt ∧
      c.content = it.content.getD (JsonValue.str b.content) ∧
      c.distance = it.distance.getD b.distance ∧
      c.rerankScore = it.rerank_score.or b.rerankScore := by
  intro c hc
  rw [mergeResultsU, List.mem_filterMap] at hc
  obtain ⟨it, hit, heq⟩ := hc
  rw [Option.map_eq_some'] at heq
  obtain ⟨b, hb, hcb⟩ := heq
  subst hcb
  rw [lookupById] at hb
  have hbmem := List.mem_of_getLast?_eq_some hb
  rw [List.mem_filter] at hbmem
  exact ⟨b, hbmem.1, it, hit, by simpa using hbmem.2, rfl, rfl, rfl, rfl, rfl⟩

/-- Witness for the amended C10 on a merge whose reranker item carries a
numeric content. -/
theorem rerank_merge_frame_witness :
    ∃ b ∈ [candA], ∃ it ∈ [itemNum],
      toString b.id = it.id ∧
      (⟨1, JsonValue.num 3, 10, 1, none⟩ : MergedChunk).id = b.id ∧
      (⟨1, JsonValue.num 3, 10, 1, none⟩ : MergedChunk).createdAt = b.createdAt ∧
      (⟨1, JsonValue.num 3, 10, 1, none⟩ : MergedChunk).content =
        it.content.getD (JsonValue.str b.content) ∧
      (⟨1, JsonValue.num 3, 10, 1, none⟩ : MergedChunk).distance =
        it.distance.getD b.distance ∧
      (⟨1, JsonValue.num 3, 10, 1, none⟩ : MergedChunk).rerankScore =
        it.rerank_score.or b.rerankScore :=
  rerank_merge_frame [itemNum] [candA] ⟨1, JsonValue.num 3, 10, 1, none⟩ (by decide)

/-- Claim C5: whenever a dispatched `addResource` call succeeds, the
orchestrator responds with the fixed text "Saved." and performs no further
model round-trip in that turn. -/
theorem addResource_success_saved (w : ChatWorld) (resps : Nat → ModelResp)
    (step fuel : Nat) (log : TurnLog) (content : Option String)
    (pre post : List ToolCall) (c : ToolCall)
    (hresp : resps step = .message content (pre ++ c :: post))
    (hpre : ∀ c2 ∈ pre, ¬ shortCircuits w c2)
    (hsc : shortCircuits w c) :
    (runLoop w resps step (fuel + 1) false log).text = savedMsg ∧
    (runLoop w resps step (fuel + 1) false log).log.modelCalls = log.modelCalls + 1 := by
  obtain ⟨log2, hrc, hmc⟩ := runCalls_short hsc pre post log.bumpModel.bumpDispatchStep hpre
  rw [runLoop, hresp]
  dsimp only
  rw [if_neg (by simp), if_neg Bool.false_ne_true, hrc]
  exact ⟨rfl, hmc⟩

/-- Witness for C5: a single successful `addResource` call answers "Saved."
after exactly one model round-trip. -/
theorem addResource_success_saved_witness :
    (runLoop cwTest respsAddOnly 0 3 false TurnLog.init).text = savedMsg ∧
    (runLoop cwTest respsAddOnly 0 3 false TurnLog.init).log.modelCalls =
      TurnLog.init.modelCalls + 1 :=
  addResource_success_saved cwTest respsAddOnly 0 2 TurnLog.init none [] [] cAddT
    rfl (fun c2 hc2 => absurd hc2 (List.not_mem_nil c2)) (by decide)


/-- Claim C3: when the reranker is unconfigured, has an invalid URL, is
unreachable, answers with a non-ok status or a malformed body, or every
result is dropped in the merge, `findRelevantContent` returns exactly the
first-stage distance-ascending candidates truncated to the limit; no
reranker failure is propagated as an error, and a rerank-failing run returns
the same value as a rerank-disabled run on the same stored corpus. -/
theorem retriever_rerank_fallback (q : String) (opts : Option Nat) (w : RetrieverWorld)
    (vec : List ℚ) (hv : w.embedVec = some vec)
    (hfail : rerankFailed w.reranker (baseChunks w vec (opts.getD DEFAULT_LIMIT))) :
    (findRelevantContent q opts w).1 =
      (findRelevantContent q opts { w with reranker := .unconfigured }).1 ∧
    (jsTrim q ≠ "" → ¬ vec.isEmpty →
      (findRelevantContent q opts w).1 =
        .ok ((baseChunks w vec (opts.getD DEFAULT_LIMIT)).take (opts.getD DEFAULT_LIMIT))) := by
  have hv2 : ({ w with reranker := RerankerOutcome.unconfigured } :
      RetrieverWorld).embedVec = some vec := hv
  by_cases hq : jsTrim q = ""
  · refine ⟨?_, fun hq2 => absurd hq hq2⟩
    rw [find_trim_empty hq, @find_trim_empty q opts { w with reranker := .unconfigured } hq]
  · by_cases hvec : vec.isEmpty
    · refine ⟨?_, fun _ hvec2 => absurd hvec hvec2⟩
      rw [find_vec_empty hq hv hvec,
        @find_vec_empty q opts { w with reranker := .unconfigured } vec hq hv2 hvec]
    · by_cases hrows :
        (queryRows w vec (firstStageLimitOf (opts.getD DEFAULT_LIMIT))).isEmpty
      · have hrows2 : (queryRows { w with reranker := RerankerOutcome.unconfigured } vec
            (firstStageLimitOf (opts.getD DEFAULT_LIMIT))).isEmpty := hrows
        have hbase : baseChunks w vec (opts.getD DEFAULT_LIMIT) = [] := by
          rw [baseChunks, List.isEmpty_iff.mp hrows]
          rfl
        refine ⟨?_, ?_⟩
        · rw [find_rows_empty hq hv hvec hrows,
            @find_rows_empty q opts { w with reranker := .unconfigured } vec hq hv2 hvec hrows2]
        · intro _ _
          rw [find_rows_empty hq hv hvec hrows, hbase]
          simp
      · have hrows2 : ¬ (queryRows { w with reranker := RerankerOutcome.unconfigured } vec
            (firstStageLimitOf (opts.getD DEFAULT_LIMIT))).isEmpty := hrows
        have hne : ¬ (baseChunks w vec (opts.getD DEFAULT_LIMIT)).isEmpty := by
          intro hcontr
          apply hrows
          rw [List.isEmpty_iff] at hcontr ⊢
          rw [baseChunks] at hcontr
          exact List.map_eq_nil_iff.mp hcontr
        have hnone := @callReranker_fail_fst (jsTrim q) w.reranker
          (baseChunks w vec (opts.getD DEFAULT_LIMIT)) (opts.getD DEFAULT_LIMIT) hne hfail
        have hwl : (findRelevantContent q opts w).1 =
            .ok ((baseChunks w vec (opts.getD DEFAULT_LIMIT)).take (opts.getD DEFAULT_LIMIT)) := by
          rw [find_main_eq hq hv hvec hrows]
          cases hcr : callReranker (jsTrim q) w.reranker
              (baseChunks w vec (opts.getD DEFAULT_LIMIT)) (opts.getD DEFAULT_LIMIT) with
          | mk rr fetched =>
            have hrr : rr = none := by rw [hcr] at hnone; exact hnone
            subst hrr
            rfl
        have hwr : (findRelevantContent q opts
            { w with reranker := RerankerOutcome.unconfigured }).1 =
            .ok ((baseChunks w vec (opts.getD DEFAULT_LIMIT)).take (opts.getD DEFAULT_LIMIT)) := by
          have hbw : baseChunks { w with reranker := RerankerOutcome.unconfigured } vec
              (opts.getD DEFAULT_LIMIT) = baseChunks w vec (opts.getD DEFAULT_LIMIT) := rfl
          rw [@find_main_eq q opts { w with reranker := .unconfigured } vec hq hv2 hvec hrows2]
          dsimp only
          rw [hbw, callReranker_unconfigured hne]
        exact ⟨hwl.trans hwr.symm, fun _ _ => hwl⟩

/-- Witness for C3: the reranker fetch throws; the run equals the
unconfigured run and yields the first-stage head. -/
theorem retriever_rerank_fallback_witness :
    (findRelevantContent (" hi ") (some 1) wFail).1 =
      (findRelevantContent (" hi ") (some 1) { wFail with reranker := .unconfigured }).1 ∧
    (jsTrim (" hi ") ≠ "" → ¬ ([1] : List ℚ).isEmpty →
      (findRelevantContent (" hi ") (some 1) wFail).1 =
        .ok ((baseChunks wFail [1] ((some 1 : Option Nat).getD DEFAULT_LIMIT)).take
          ((some 1 : Option Nat).getD DEFAULT_LIMIT))) :=
  retriever_rerank_fallback (" hi ") (some 1) wFail [1] rfl
    (Or.inr (Or.inr (Or.inl rfl)))

/-- Counterexample to claim C6 as stated: when the single model response
carries a successful `addResource` call followed by a `getInformation` call,
the second call is never dispatched and no tool message is appended for
either call — the successful `addResource` returns "Saved." from inside the
dispatch loop before any tool message is pushed. -/
theorem tool_calls_per_call_message_counterexample :
    ¬ (∀ c ∈ [cAddT, cGetT],
        c ∈ (POST cwTest respsAddGet).log.dispatched ∧
        ∃ p ∈ (POST cwTest respsAddGet).log.toolMessages, p.1 = c.id) := by
  decide

/-- Claim C6 as amended, as an exact characterization of the dispatch step.
If no call short-circuits, every call of the response is dispatched in
sequence, an error-shaped or successful result is produced for each, and a
tool message per call is appended (in call order) before the next model
round-trip.  If the response decomposes as `pre ++ c :: post` with `c` the
first short-circuiting successful `addResource`, the turn ends with "Saved.",
the dispatched calls are exactly `pre ++ [c]` — the calls after `c` are not
dispatched — and the appended tool messages are exactly those of `pre`: the
short-circuiting `addResource` itself appends no tool message. -/
theorem tool_calls_sequential_dispatch (w : ChatWorld) (resps : Nat → ModelResp)
    (step fuel : Nat) (log : TurnLog) (content : Option String) (calls : List ToolCall)
    (hresp : resps step = .message content calls) (hne : calls ≠ []) :
    ((∀ c ∈ calls, ¬ shortCircuits w c) →
      runLoop w resps step (fuel + 1) false log =
        runLoop w resps (step + 1) fuel true
          ⟨log.modelCalls + 1, log.dispatchSteps + 1, log.dispatched ++ calls,
            log.toolMessages ++ calls.map (fun c => (c.id, dispatchResult w c))⟩) ∧
    (∀ (pre : List ToolCall) (c : ToolCall) (post : List ToolCall),
      calls = pre ++ c :: post → (∀ c2 ∈ pre, ¬ shortCircuits w c2) →
      shortCircuits w c →
      runLoop w resps step (fuel + 1) false log =
        ⟨savedMsg, ⟨log.modelCalls + 1, log.dispatchSteps + 1,
          log.dispatched ++ pre ++ [c],
          log.toolMessages ++ pre.map (fun c2 => (c2.id, dispatchResult w c2))⟩⟩) := by
  constructor
  · intro hns
    rw [runLoop, hresp]
    dsimp only
    rw [if_neg (by simpa using hne), if_neg Bool.false_ne_true,
      runCalls_no_sc_eq calls log.bumpModel.bumpDispatchStep hns]
    rfl
  · intro pre c post hdec hns hsc
    subst hdec
    rw [runLoop, hresp]
    dsimp only
    rw [if_neg (by simp [hne]), if_neg Bool.false_ne_true,
      runCalls_sc_eq hsc pre post log.bumpModel.bumpDispatchStep hns]
    rfl

/-- Witness for the amended C6: a lone `getInformation` call is dispatched
with its tool message before the second round-trip, and an
`addResource(success), getInformation` pair ends with "Saved.", only the
`addResource` dispatched and no tool message appended. -/
theorem tool_calls_sequential_dispatch_witness :
    (runLoop cwTest respsGetOnly 0 3 false TurnLog.init =
      runLoop cwTest respsGetOnly 1 2 true
        ⟨1, 1, [cGetT], [(cGetT.id, dispatchResult cwTest cGetT)]⟩) ∧
    (runLoop cwTest respsAddGet 0 3 false TurnLog.init =
      ⟨savedMsg, ⟨1, 1, [cAddT], []⟩⟩) :=
  ⟨(tool_calls_sequential_dispatch cwTest respsGetOnly 0 2 TurnLog.init none [cGetT]
      rfl (by decide)).1 (by decide),
   (tool_calls_sequential_dispatch cwTest respsAddGet 0 2 TurnLog.init none [cAddT, cGetT]
      rfl (by decide)).2 [] cAddT [cGetT] rfl (by decide) (by decide)⟩

/-- Counterexample to claim C7 as stated: a model response carrying no
message terminates the turn with the fixed fallback text
"Unable to produce a final answer.", which is not the fixed apologetic
message the claim promises for that case. -/
theorem model_failure_counterexample :
    (POST cwTest respsNoMsg).text = exhaustedMsg ∧
    (POST cwTest respsNoMsg).text ≠ apologyMsg := by
  constructor
  · decide
  · decide

/-- Claim C7 as amended: a thrown model call at any step terminates the turn
immediately with the fixed apologetic message, and a response carrying no
message terminates it immediately with the fixed fallback message; both
responses are constants — in particular the raw error text is never part of
the response. -/
theorem model_failure_fixed_messages (w : ChatWorld) (resps : Nat → ModelResp)
    (step fuel : Nat) (toolUsed : Bool) (log : TurnLog) (e : String) :
    (resps step = .failure e →
      runLoop w resps step (fuel + 1) toolUsed log = ⟨apologyMsg, log.bumpModel⟩) ∧
    (resps step = .noMessage →
      runLoop w resps step (fuel + 1) toolUsed log = ⟨exhaustedMsg, log.bumpModel⟩) := by
  constructor
  · intro h
    rw [runLoop, h]
  · intro h
    rw [runLoop, h]

/-- Witness for the amended C7: a throwing first call yields the apology, a
message-less first response yields the fallback. -/
theorem model_failure_fixed_messages_witness :
    runLoop cwTest respsFail 0 3 false TurnLog.init =
      ⟨apologyMsg, TurnLog.init.bumpModel⟩ ∧
    runLoop cwTest respsNoMsg 0 3 false TurnLog.init =
      ⟨exhaustedMsg, TurnLog.init.bumpModel⟩ :=
  ⟨(model_failure_fixed_messages cwTest respsFail 0 2 false TurnLog.init ("boom")).1 rfl,
   (model_failure_fixed_messages cwTest respsNoMsg 0 2 false TurnLog.init ("x")).2 rfl⟩
